import Mathlib

/-
  A verification development for the PropertySelection algebra of the
  substance document model. Definitions are shallow embeddings of the
  JavaScript class PropertySelection (constructor, toJSON/fromJSON,
  predicates isInsideOf/contains/overlaps, and the transforms collapse,
  expand, truncateWith, createWithNewRange). Offsets are modelled as
  integers; paths as lists of strings compared structurally (lodash
  isEqual); JS exceptions as an error sum type via Except.
-/

namespace Substance

/-- Errors raised by the selection algebra. Each constructor corresponds to
one `throw new Error(...)` site in the source. -/
inductive SelError where
  | invalidArguments
  | unsupportedTruncation
  | incompatiblePath
  | illegalState
deriving Repr, DecidableEq

/-- The stored fields of a PropertySelection instance. `containerId` and
`surfaceId` may be undefined in JS, hence Option. -/
structure PropertySelection where
  path : List String
  startOffset : Int
  endOffset : Int
  reverse : Bool
  containerId : Option String
  surfaceId : Option String
deriving Repr, DecidableEq

/-- A selection as seen by the algebra under verification: either the null
selection singleton (Selection.nullSelection) or a property-scoped
selection. Container selections are outside the claims' scope. -/
inductive Sel where
  | nullSel : Sel
  | prop : PropertySelection → Sel
deriving Repr, DecidableEq

/-- Decidable equality of transform results, so concrete runs of the
transforms can be settled by decide. -/
instance : DecidableEq (Except SelError Sel) :=
  fun a b =>
    match a, b with
    | .ok x, .ok y =>
      if h : x = y then .isTrue (congrArg Except.ok h)
      else .isFalse (fun hc => h (Except.ok.inj hc))
    | .error x, .error y =>
      if h : x = y then .isTrue (congrArg Except.error h)
      else .isFalse (fun hc => h (Except.error.inj hc))
    | .ok _, .error _ => .isFalse (fun hc => Except.noConfusion hc)
    | .error _, .ok _ => .isFalse (fun hc => Except.noConfusion hc)

/-- Modelled from the spec: the null selection singleton (class NullSelection,
not under src/) answers `isNull()` with true; a PropertySelection answers
false (source line 95). -/
def Sel.isNull : Sel → Bool
  | .nullSel => true
  | .prop _ => false

/-- The JS constructor `new PropertySelection(path, startOffset, endOffset,
reverse, containerId, surfaceId)`. It throws iff `path` is absent or
`startOffset` is not a number; `reverse` is coerced with `Boolean(reverse)`;
no other validation happens (in particular `endOffset` is not checked
against `startOffset`). -/
def PropertySelection.make (path : Option (List String)) (startOffset : Option Int)
    (endOffset : Int) (reverse : Option Bool)
    (containerId surfaceId : Option String) : Except SelError PropertySelection :=
  match path, startOffset with
  | some p, some so => .ok ⟨p, so, endOffset, reverse.getD false, containerId, surfaceId⟩
  | _, _ => .error .invalidArguments

/-- `isCollapsed()`: startOffset === endOffset. -/
def PropertySelection.isCollapsed (s : PropertySelection) : Bool :=
  s.startOffset == s.endOffset

/-- `PropertySelection.prototype.isInsideOf(other, strict)`: false for the
null selection; otherwise same path and offset containment (strict or
non-strict). -/
def PropertySelection.isInsideOf (s : PropertySelection) (other : Sel)
    (strict : Bool) : Bool :=
  match other with
  | .nullSel => false
  | .prop o =>
    if strict then
      s.path == o.path && decide (s.startOffset > o.startOffset)
        && decide (s.endOffset < o.endOffset)
    else
      s.path == o.path && decide (s.startOffset ≥ o.startOffset)
        && decide (s.endOffset ≤ o.endOffset)

/-- Dispatch of `isInsideOf` over the selection kind. The null selection's
branch is modelled from the spec: the null selection is absorbing, never
inside anything (class NullSelection is not under src/). -/
def Sel.isInsideOf (a : Sel) (other : Sel) (strict : Bool) : Bool :=
  match a with
  | .nullSel => false
  | .prop s => s.isInsideOf other strict

/-- `PropertySelection.prototype.contains(other, strict)`: false for the null
selection, otherwise `other.isInsideOf(this, strict)`. -/
def PropertySelection.contains (s : PropertySelection) (other : Sel)
    (strict : Bool) : Bool :=
  if other.isNull then false
  else Sel.isInsideOf other (.prop s) strict

/-- Dispatch of `contains` over the selection kind. The null selection's
branch is modelled from the spec: the null selection contains nothing. -/
def Sel.contains (a : Sel) (other : Sel) (strict : Bool) : Bool :=
  match a with
  | .nullSel => false
  | .prop s => s.contains other strict

/-- `PropertySelection.prototype.overlaps(other, strict)`: false for the null
selection; requires equal paths; strict excludes touching boundaries. -/
def PropertySelection.overlaps (s : PropertySelection) (other : Sel)
    (strict : Bool) : Bool :=
  match other with
  | .nullSel => false
  | .prop o =>
    if s.path != o.path then false
    else if strict then
      !(decide (s.startOffset ≥ o.endOffset) || decide (s.endOffset ≤ o.startOffset))
    else
      !(decide (s.startOffset > o.endOffset) || decide (s.endOffset < o.startOffset))

/-- `createWithNewRange(startOffset, endOffset)`: a new non-reversed
selection carrying forward path, containerId and surfaceId. -/
def PropertySelection.createWithNewRange (s : PropertySelection)
    (startOffset endOffset : Int) : PropertySelection :=
  ⟨s.path, startOffset, endOffset, false, s.containerId, s.surfaceId⟩

/-- `collapse(direction)`: new selection collapsed to the chosen boundary
(left means startOffset, anything else means endOffset). -/
def PropertySelection.collapse (s : PropertySelection) (direction : String) :
    PropertySelection :=
  let offset := if direction == "left" then s.startOffset else s.endOffset
  s.createWithNewRange offset offset

/-- `expand(other)`: returns `this` for the null selection; throws on a
different path; otherwise the range union via createWithNewRange. -/
def PropertySelection.expand (s : PropertySelection) (other : Sel) :
    Except SelError Sel :=
  match other with
  | .nullSel => .ok (.prop s)
  | .prop o =>
    if s.path != o.path then .error .incompatiblePath
    else .ok (.prop (s.createWithNewRange (min s.startOffset o.startOffset)
      (max s.endOffset o.endOffset)))

/-- `truncateWith(other)`: returns `this` for the null selection; throws if
`other` is strictly inside `this`; returns `this` when there is no
(non-strict) overlap; otherwise performs the source's offset case split,
falling through to the `Illegal state` error. -/
def PropertySelection.truncateWith (s : PropertySelection) (other : Sel) :
    Except SelError Sel :=
  if other.isNull then .ok (.prop s)
  else if Sel.isInsideOf other (.prop s) true then .error .unsupportedTruncation
  else if !(s.overlaps other false) then .ok (.prop s)
  else
    match other with
    | .nullSel => .ok (.prop s)
    | .prop o =>
      let otherStartOffset := o.startOffset
      let otherEndOffset := o.endOffset
      if s.startOffset > otherStartOffset ∧ s.endOffset > otherEndOffset then
        .ok (.prop (s.createWithNewRange otherEndOffset s.endOffset))
      else if s.startOffset < otherStartOffset ∧ s.endOffset < otherEndOffset then
        .ok (.prop (s.createWithNewRange s.startOffset otherStartOffset))
      else if s.startOffset = otherStartOffset then
        if s.endOffset ≤ otherEndOffset then .ok .nullSel
        else .ok (.prop (s.createWithNewRange otherEndOffset s.endOffset))
      else if s.endOffset = otherEndOffset then
        if s.startOffset ≥ otherStartOffset then .ok .nullSel
        else .ok (.prop (s.createWithNewRange s.startOffset otherStartOffset))
      else if Sel.contains other (.prop s) false then
        .ok .nullSel
      else
        .error .illegalState

/-- The serialized shape of a selection. `none` encodes an absent key. -/
structure SelJSON where
  type : String
  path : Option (List String)
  startOffset : Option Int
  endOffset : Option Int
  reverse : Option Bool
  containerId : Option String
  surfaceId : Option String
deriving Repr, DecidableEq

/-- `toJSON()`: emits every stored field under type property. -/
def PropertySelection.toJSON (s : PropertySelection) : SelJSON :=
  ⟨"property", some s.path, some s.startOffset, some s.endOffset,
    some s.reverse, s.containerId, s.surfaceId⟩

/-- `PropertySelection.fromJSON(json)`: endOffset defaults to startOffset
when the key is absent; everything is handed to the constructor, which
throws when startOffset is missing. -/
def PropertySelection.fromJSON (json : SelJSON) : Except SelError PropertySelection :=
  match json.startOffset with
  | none => .error .invalidArguments
  | some so =>
    let eo := json.endOffset.getD so
    PropertySelection.make json.path (some so) eo json.reverse
      json.containerId json.surfaceId

/-- A well-formed selection: the null selection, or a property selection
whose offsets satisfy the documented invariant startOffset <= endOffset. -/
def Sel.wellFormed : Sel → Prop
  | .nullSel => True
  | .prop s => s.startOffset ≤ s.endOffset

/-- Unfolding of the strictly-inside guard of truncateWith (with `other`
and `this` both property-scoped). -/
theorem strictInside_eq (s o : PropertySelection) :
    Sel.isInsideOf (.prop o) (.prop s) true =
      (o.path == s.path && decide (o.startOffset > s.startOffset)
        && decide (o.endOffset < s.endOffset)) := rfl

/-- Unfolding of the non-strict `other.contains(this)` test used by the last
enumerated truncation branch. -/
theorem contains_nonstrict_eq (s o : PropertySelection) :
    Sel.contains (.prop o) (.prop s) false =
      (s.path == o.path && decide (s.startOffset ≥ o.startOffset)
        && decide (s.endOffset ≤ o.endOffset)) := rfl

/-- When the other property-scoped selection is strictly inside this one,
truncateWith stops at its second guard with the unsupported-truncation
error. -/
theorem truncateWith_of_strictInside (s o : PropertySelection)
    (h : Sel.isInsideOf (.prop o) (.prop s) true = true) :
    s.truncateWith (.prop o) = .error .unsupportedTruncation := by
  unfold PropertySelection.truncateWith
  rw [h]
  simp [Sel.isNull]

/-- Once the null, strictly-inside and no-overlap guards of truncateWith
are settled, the function reduces to the source's offset case split. -/
theorem truncateWith_prop_cases (s o : PropertySelection)
    (hni : Sel.isInsideOf (.prop o) (.prop s) true = false)
    (hov : s.overlaps (.prop o) false = true) :
    s.truncateWith (.prop o) =
      (if s.startOffset > o.startOffset ∧ s.endOffset > o.endOffset then
        .ok (.prop (s.createWithNewRange o.endOffset s.endOffset))
      else if s.startOffset < o.startOffset ∧ s.endOffset < o.endOffset then
        .ok (.prop (s.createWithNewRange s.startOffset o.startOffset))
      else if s.startOffset = o.startOffset then
        if s.endOffset ≤ o.endOffset then .ok .nullSel
        else .ok (.prop (s.createWithNewRange o.endOffset s.endOffset))
      else if s.endOffset = o.endOffset then
        if s.startOffset ≥ o.startOffset then .ok .nullSel
        else .ok (.prop (s.createWithNewRange s.startOffset o.startOffset))
      else if Sel.contains (.prop o) (.prop s) false then
        .ok .nullSel
      else
        .error .illegalState) := by
  unfold PropertySelection.truncateWith
  rw [hni, hov]
  simp [Sel.isNull]

/-- C9: for every selection `a` (property-scoped or the null selection),
every property-scoped selection `b`, and either strictness,
`a.isInsideOf(b, strict)` coincides with `b.contains(a, strict)`:
containment and insideness are exact mirrors of each other. -/
theorem C9_contains_mirrors_isInsideOf (a : Sel) (b : PropertySelection) (strict : Bool) :
    Sel.isInsideOf a (.prop b) strict = Sel.contains (.prop b) a strict := by
  cases a <;>
    simp [Sel.isInsideOf, Sel.contains, PropertySelection.contains, Sel.isNull]

/-- C10: expanding or truncating any PropertySelection with the null
selection returns that selection itself: in the source both transforms
return `this` from the initial `other.isNull()` guard, never reaching
`createWithNewRange` (which would reset the reverse flag), so the null
selection is an identity for both. -/
theorem C10_null_identity (s : PropertySelection) :
    s.expand .nullSel = .ok (.prop s) ∧ s.truncateWith .nullSel = .ok (.prop s) := by
  constructor
  · simp [PropertySelection.expand]
  · simp [PropertySelection.truncateWith, Sel.isNull]

/-- C6: for two non-null property-scoped selections, `overlaps` requires
equal paths, then follows exactly the spec's rule (non-strict:
NOT (this.start > other.end OR this.end < other.start); strict:
NOT (this.start >= other.end OR this.end <= other.start)), and is
symmetric on a shared path. -/
theorem C6_overlaps_rule_and_symm (s o : PropertySelection) (strict : Bool) :
    (s.path ≠ o.path → s.overlaps (.prop o) strict = false) ∧
    (s.path = o.path →
      (s.overlaps (.prop o) strict = true ↔
        if strict then
          ¬(s.startOffset ≥ o.endOffset ∨ s.endOffset ≤ o.startOffset)
        else
          ¬(s.startOffset > o.endOffset ∨ s.endOffset < o.startOffset))) ∧
    (s.path = o.path → s.overlaps (.prop o) strict = o.overlaps (.prop s) strict) := by
  refine ⟨fun hne => ?_, fun heq => ?_, fun heq => ?_⟩
  · simp [PropertySelection.overlaps, hne]
  · cases strict <;> simp [PropertySelection.overlaps, heq]
  · rw [Bool.eq_iff_iff]
    cases strict <;> simp [PropertySelection.overlaps, heq] <;> omega

/-- C6 witness: at `[0,10]` and `[5,15]` on the shared path `p1.content`,
the non-strict overlap rule evaluates as specified and is symmetric. -/
theorem C6_overlaps_rule_and_symm_witness :
    ((⟨["p1", "content"], 0, 10, false, none, none⟩ : PropertySelection).overlaps
        (.prop ⟨["p1", "content"], 5, 15, false, none, none⟩) false = true ↔
      ¬((0 : Int) > 15 ∨ (10 : Int) < 5)) ∧
    (⟨["p1", "content"], 0, 10, false, none, none⟩ : PropertySelection).overlaps
        (.prop ⟨["p1", "content"], 5, 15, false, none, none⟩) false =
      (⟨["p1", "content"], 5, 15, false, none, none⟩ : PropertySelection).overlaps
        (.prop ⟨["p1", "content"], 0, 10, false, none, none⟩) false := by
  have h := C6_overlaps_rule_and_symm
    ⟨["p1", "content"], 0, 10, false, none, none⟩
    ⟨["p1", "content"], 5, 15, false, none, none⟩ false
  exact ⟨by simpa using h.2.1 rfl, h.2.2 rfl⟩

/-- C8: serialization round-trip. `fromJSON(toJSON(s))` rebuilds `s` with
identical path, startOffset, endOffset, reverse, containerId and surfaceId;
and when the input JSON lacks the endOffset key, `fromJSON` defaults
endOffset to startOffset, producing a collapsed selection. -/
theorem C8_json_roundtrip (s : PropertySelection) (json : SelJSON) (n : Int)
    (hstart : json.startOffset = some n) (hend : json.endOffset = none) :
    PropertySelection.fromJSON s.toJSON = .ok s ∧
    (∀ r, PropertySelection.fromJSON json = .ok r →
      r.endOffset = n ∧ r.isCollapsed = true) := by
  constructor
  · simp [PropertySelection.fromJSON, PropertySelection.toJSON, PropertySelection.make]
  · intro r hr
    simp only [PropertySelection.fromJSON, hstart, hend, Option.getD_none,
      PropertySelection.make] at hr
    rcases hp : json.path with _ | p
    · rw [hp] at hr; cases hr
    · rw [hp] at hr
      cases hr
      simp [PropertySelection.isCollapsed]

/-- C8 witness: the round-trip holds at a concrete selection, and a JSON
object for path p1.content with startOffset 4 and no endOffset parses to a
collapsed selection at offset 4. -/
theorem C8_json_roundtrip_witness :
    PropertySelection.fromJSON
        (PropertySelection.toJSON ⟨["p1", "content"], 3, 6, true, some "c", some "s"⟩) =
      .ok ⟨["p1", "content"], 3, 6, true, some "c", some "s"⟩ ∧
    (∀ r, PropertySelection.fromJSON
        ⟨"property", some ["p1", "content"], some 4, none, none, none, none⟩ = .ok r →
      r.endOffset = 4 ∧ r.isCollapsed = true) :=
  C8_json_roundtrip ⟨["p1", "content"], 3, 6, true, some "c", some "s"⟩
    ⟨"property", some ["p1", "content"], some 4, none, none, none, none⟩ 4 rfl rfl

/-- C1 counterexample: with this = [0,10] and other = [5,15] on the shared
path p1.content, other straddles this selection's right side, and the code
returns [this.startOffset, other.startOffset] = [0,5] — not
[other.endOffset, this.endOffset] = [15,10] as the claim's case split
prescribes for a right-side straddle. -/
theorem C1_counterexample_right_straddle :
    (⟨["p1", "content"], 0, 10, false, none, none⟩ : PropertySelection).truncateWith
        (.prop ⟨["p1", "content"], 5, 15, false, none, none⟩) =
      .ok (.prop ((⟨["p1", "content"], 0, 10, false, none, none⟩ :
        PropertySelection).createWithNewRange 0 5)) ∧
    (⟨["p1", "content"], 0, 10, false, none, none⟩ : PropertySelection).truncateWith
        (.prop ⟨["p1", "content"], 5, 15, false, none, none⟩) ≠
      .ok (.prop ((⟨["p1", "content"], 0, 10, false, none, none⟩ :
        PropertySelection).createWithNewRange 15 10)) := by
  constructor
  · decide
  · decide

/-- C1 amended: for two property-scoped selections on the same path that
overlap non-strictly, with the other not strictly inside this one,
truncateWith returns the contiguous remainder: other straddling the LEFT
side yields [other.endOffset, this.endOffset]; straddling the RIGHT side
yields [this.startOffset, other.startOffset]; equal start offsets with
other.endOffset >= this.endOffset (and symmetrically equal end offsets
with other.startOffset <= this.startOffset) or other containing this
non-strictly yield the null selection; equal start offsets with
other.endOffset < this.endOffset yield [other.endOffset, this.endOffset],
and symmetrically for equal end offsets. -/
theorem C1_amended_truncation_case_split (s o : PropertySelection)
    (hpath : s.path = o.path)
    (hs : s.startOffset ≤ s.endOffset) (ho : o.startOffset ≤ o.endOffset) :
    (o.startOffset < s.startOffset ∧ o.endOffset < s.endOffset ∧
        s.startOffset ≤ o.endOffset →
      s.truncateWith (.prop o) =
        .ok (.prop (s.createWithNewRange o.endOffset s.endOffset))) ∧
    (s.startOffset < o.startOffset ∧ s.endOffset < o.endOffset ∧
        o.startOffset ≤ s.endOffset →
      s.truncateWith (.prop o) =
        .ok (.prop (s.createWithNewRange s.startOffset o.startOffset))) ∧
    (s.startOffset = o.startOffset ∧ s.endOffset ≤ o.endOffset →
      s.truncateWith (.prop o) = .ok .nullSel) ∧
    (s.startOffset = o.startOffset ∧ o.endOffset < s.endOffset →
      s.truncateWith (.prop o) =
        .ok (.prop (s.createWithNewRange o.endOffset s.endOffset))) ∧
    (s.endOffset = o.endOffset ∧ o.startOffset ≤ s.startOffset →
      s.truncateWith (.prop o) = .ok .nullSel) ∧
    (s.endOffset = o.endOffset ∧ s.startOffset < o.startOffset →
      s.truncateWith (.prop o) =
        .ok (.prop (s.createWithNewRange s.startOffset o.startOffset))) ∧
    (o.startOffset ≤ s.startOffset ∧ s.endOffset ≤ o.endOffset →
      s.truncateWith (.prop o) = .ok .nullSel) := by
  refine ⟨?_, ?_, ?_, ?_, ?_, ?_, ?_⟩
  · rintro ⟨h1, h2, h3⟩
    rw [truncateWith_prop_cases s o
      (by rw [strictInside_eq]; simp; omega)
      (by simp [PropertySelection.overlaps, hpath]; omega)]
    rw [if_pos ⟨h1, h2⟩]
  · rintro ⟨h1, h2, h3⟩
    rw [truncateWith_prop_cases s o
      (by rw [strictInside_eq]; simp; omega)
      (by simp [PropertySelection.overlaps, hpath]; omega)]
    rw [if_neg (by omega), if_pos ⟨h1, h2⟩]
  · rintro ⟨h1, h2⟩
    rw [truncateWith_prop_cases s o
      (by rw [strictInside_eq]; simp; omega)
      (by simp [PropertySelection.overlaps, hpath]; omega)]
    rw [if_neg (by omega), if_neg (by omega), if_pos h1, if_pos h2]
  · rintro ⟨h1, h2⟩
    rw [truncateWith_prop_cases s o
      (by rw [strictInside_eq]; simp; omega)
      (by simp [PropertySelection.overlaps, hpath]; omega)]
    rw [if_neg (by omega), if_neg (by omega), if_pos h1, if_neg (by omega)]
  · rintro ⟨h1, h2⟩
    rw [truncateWith_prop_cases s o
      (by rw [strictInside_eq]; simp; omega)
      (by simp [PropertySelection.overlaps, hpath]; omega)]
    by_cases hse : s.startOffset = o.startOffset
    · rw [if_neg (by omega), if_neg (by omega), if_pos hse, if_pos (by omega)]
    · rw [if_neg (by omega), if_neg (by omega), if_neg hse, if_pos h1,
        if_pos (by omega)]
  · rintro ⟨h1, h2⟩
    rw [truncateWith_prop_cases s o
      (by rw [strictInside_eq]; simp; omega)
      (by simp [PropertySelection.overlaps, hpath]; omega)]
    rw [if_neg (by omega), if_neg (by omega), if_neg (by omega), if_pos h1,
      if_neg (by omega)]
  · rintro ⟨h1, h2⟩
    rw [truncateWith_prop_cases s o
      (by rw [strictInside_eq]; simp; omega)
      (by simp [PropertySelection.overlaps, hpath]; omega)]
    by_cases hse : s.startOffset = o.startOffset
    · rw [if_neg (by omega), if_neg (by omega), if_pos hse, if_pos h2]
    · by_cases hee : s.endOffset = o.endOffset
      · rw [if_neg (by omega), if_neg (by omega), if_neg hse, if_pos hee,
          if_pos (by omega)]
      · rw [if_neg (by omega), if_neg (by omega), if_neg hse, if_neg hee,
          if_pos (by rw [contains_nonstrict_eq]; simp [hpath]; omega)]

/-- C1 amended witness: [0,10] truncated with [5,15] on path p1.content
(other straddles the right side) yields [0,5], and [0,10] truncated with
[0,10] yields the null selection. -/
theorem C1_amended_truncation_case_split_witness :
    (⟨["p1", "content"], 0, 10, false, none, none⟩ : PropertySelection).truncateWith
        (.prop ⟨["p1", "content"], 5, 15, false, none, none⟩) =
      .ok (.prop ((⟨["p1", "content"], 0, 10, false, none, none⟩ :
        PropertySelection).createWithNewRange 0 5)) ∧
    (⟨["p1", "content"], 0, 10, false, none, none⟩ : PropertySelection).truncateWith
        (.prop ⟨["p1", "content"], 0, 10, false, none, none⟩) = .ok .nullSel := by
  constructor
  · exact (C1_amended_truncation_case_split
      ⟨["p1", "content"], 0, 10, false, none, none⟩
      ⟨["p1", "content"], 5, 15, false, none, none⟩
      rfl (by decide) (by decide)).2.1 (by decide)
  · exact (C1_amended_truncation_case_split
      ⟨["p1", "content"], 0, 10, false, none, none⟩
      ⟨["p1", "content"], 0, 10, false, none, none⟩
      rfl (by decide) (by decide)).2.2.1 (by decide)

/-- C2: for two property-scoped selections with well-formed offsets,
truncateWith fails with the unsupported-truncation error whenever the other
selection is strictly inside this one, and returns this selection unchanged
whenever the two do not overlap at all. -/
theorem C2_strict_inside_errors_disjoint_noop (s o : PropertySelection)
    (hs : s.startOffset ≤ s.endOffset) (ho : o.startOffset ≤ o.endOffset) :
    (Sel.isInsideOf (.prop o) (.prop s) true = true →
      s.truncateWith (.prop o) = .error .unsupportedTruncation) ∧
    (s.overlaps (.prop o) false = false →
      s.truncateWith (.prop o) = .ok (.prop s)) := by
  constructor
  · exact truncateWith_of_strictInside s o
  · intro hov
    have hni : Sel.isInsideOf (.prop o) (.prop s) true = false := by
      rw [strictInside_eq]
      by_cases hp : s.path = o.path
      · simp [PropertySelection.overlaps, hp] at hov
        simp
        omega
      · simp [beq_iff_eq]
        intro he
        exact absurd he.symm hp
    unfold PropertySelection.truncateWith
    rw [hni, hov]
    simp [Sel.isNull]

/-- C2 witness: [0,10] truncated with the strictly contained [3,6] on the
same path fails with the unsupported-truncation error, and [0,10] truncated
with the disjoint [20,30] is returned unchanged. -/
theorem C2_strict_inside_errors_disjoint_noop_witness :
    (⟨["p1", "content"], 0, 10, false, none, none⟩ : PropertySelection).truncateWith
        (.prop ⟨["p1", "content"], 3, 6, false, none, none⟩) =
      .error .unsupportedTruncation ∧
    (⟨["p1", "content"], 0, 10, false, none, none⟩ : PropertySelection).truncateWith
        (.prop ⟨["p1", "content"], 20, 30, false, none, none⟩) =
      .ok (.prop ⟨["p1", "content"], 0, 10, false, none, none⟩) := by
  constructor
  · exact (C2_strict_inside_errors_disjoint_noop
      ⟨["p1", "content"], 0, 10, false, none, none⟩
      ⟨["p1", "content"], 3, 6, false, none, none⟩
      (by decide) (by decide)).1 (by decide)
  · exact (C2_strict_inside_errors_disjoint_noop
      ⟨["p1", "content"], 0, 10, false, none, none⟩
      ⟨["p1", "content"], 20, 30, false, none, none⟩
      (by decide) (by decide)).2 (by decide)

/-- C3 counterexample: the constructor accepts path p1.content with
startOffset 5 and endOffset 2 (it only validates that path is present and
startOffset is a number) and yields an instance with
startOffset > endOffset, violating the claimed invariant. -/
theorem C3_counterexample_constructor_accepts_inverted :
    PropertySelection.make (some ["p1", "content"]) (some 5) 2 (some false)
        none none =
      .ok ⟨["p1", "content"], 5, 2, false, none, none⟩ ∧
    ¬((⟨["p1", "content"], 5, 2, false, none, none⟩ :
        PropertySelection).startOffset ≤
      (⟨["p1", "content"], 5, 2, false, none, none⟩ :
        PropertySelection).endOffset) := by
  constructor
  · rfl
  · decide

/-- C3 amended: the constructor (and hence fromJSON and createWithNewRange)
does not validate endOffset against startOffset and can yield instances
with startOffset > endOffset; the transforms, however, preserve the
invariant: collapse always yields a collapsed (hence well-formed)
selection, and every selection successfully produced by expand or
truncateWith is well-formed given well-formed inputs. -/
theorem C3_amended_transforms_preserve_invariant (s : PropertySelection)
    (other : Sel) (d : String)
    (hs : s.startOffset ≤ s.endOffset) (ho : Sel.wellFormed other) :
    ((s.collapse d).startOffset ≤ (s.collapse d).endOffset) ∧
    (∀ r, s.expand other = .ok r → Sel.wellFormed r) ∧
    (∀ r, s.truncateWith other = .ok r → Sel.wellFormed r) := by
  refine ⟨?_, ?_, ?_⟩
  · simp [PropertySelection.collapse, PropertySelection.createWithNewRange]
  · intro r hr
    cases other with
    | nullSel =>
      simp only [PropertySelection.expand, Except.ok.injEq] at hr
      subst hr
      exact hs
    | prop o =>
      simp only [PropertySelection.expand] at hr
      split_ifs at hr
      simp only [Except.ok.injEq] at hr
      subst hr
      simp only [Sel.wellFormed, PropertySelection.createWithNewRange]
      have h1 : min s.startOffset o.startOffset ≤ s.startOffset :=
        min_le_left _ _
      have h2 : s.endOffset ≤ max s.endOffset o.endOffset := le_max_left _ _
      omega
  · intro r hr
    cases other with
    | nullSel =>
      simp only [PropertySelection.truncateWith, Sel.isNull, if_true,
        Except.ok.injEq] at hr
      subst hr
      exact hs
    | prop o =>
      by_cases hni : Sel.isInsideOf (.prop o) (.prop s) true = true
      · rw [truncateWith_of_strictInside s o hni] at hr
        cases hr
      · rw [Bool.not_eq_true] at hni
        by_cases hov : s.overlaps (.prop o) false = true
        · rw [truncateWith_prop_cases s o hni hov] at hr
          split_ifs at hr with h1 h2 h3 h4 h5 h6 h7 <;>
            simp only [Except.ok.injEq] at hr <;>
            subst hr <;>
            simp only [Sel.wellFormed, PropertySelection.createWithNewRange] <;>
            omega
        · rw [Bool.not_eq_true] at hov
          unfold PropertySelection.truncateWith at hr
          rw [hov] at hr
          rw [hni] at hr
          simp only [Sel.isNull, Bool.not_false, if_true, Bool.false_eq_true,
            if_false, Except.ok.injEq] at hr
          subst hr
          exact hs

/-- C3 amended witness: collapse, expand and truncateWith each preserve the
invariant at the concrete selection [3,6] combined with [1,9] on the shared
path p1.content. -/
theorem C3_amended_transforms_preserve_invariant_witness :
    (((⟨["p1", "content"], 3, 6, false, none, none⟩ :
        PropertySelection).collapse "left").startOffset ≤
      ((⟨["p1", "content"], 3, 6, false, none, none⟩ :
        PropertySelection).collapse "left").endOffset) ∧
    (∀ r, (⟨["p1", "content"], 3, 6, false, none, none⟩ :
        PropertySelection).expand
        (.prop ⟨["p1", "content"], 1, 9, false, none, none⟩) = .ok r →
      Sel.wellFormed r) ∧
    (∀ r, (⟨["p1", "content"], 3, 6, false, none, none⟩ :
        PropertySelection).truncateWith
        (.prop ⟨["p1", "content"], 1, 9, false, none, none⟩) = .ok r →
      Sel.wellFormed r) :=
  C3_amended_transforms_preserve_invariant
    ⟨["p1", "content"], 3, 6, false, none, none⟩
    (.prop ⟨["p1", "content"], 1, 9, false, none, none⟩) "left"
    (by decide) (by norm_num [Sel.wellFormed])

/-- C4: for two property-scoped selections on the same path, each with
well-formed offsets, if the other is not strictly inside this one and the
two overlap non-strictly, the case analysis in truncateWith is exhaustive:
the final fallback branch throwing the internal Illegal state error is
never reached. -/
theorem C4_illegal_state_unreachable (s o : PropertySelection)
    (hpath : s.path = o.path)
    (hs : s.startOffset ≤ s.endOffset) (ho : o.startOffset ≤ o.endOffset)
    (hni : Sel.isInsideOf (.prop o) (.prop s) true = false)
    (hov : s.overlaps (.prop o) false = true) :
    s.truncateWith (.prop o) ≠ .error .illegalState := by
  rw [truncateWith_prop_cases s o hni hov]
  rw [strictInside_eq] at hni
  simp only [hpath, beq_self_eq_true, Bool.true_and, Bool.and_eq_true,
    decide_eq_true_eq, Bool.and_eq_false_iff, decide_eq_false_iff_not,
    not_lt, not_le] at hni
  split_ifs with h1 h2 h3 h4 h5 <;> try simp
  rename_i hcont
  rw [contains_nonstrict_eq] at hcont
  simp only [hpath, beq_self_eq_true, Bool.true_and, Bool.and_eq_true,
    decide_eq_true_eq, not_and, ge_iff_le] at hcont
  omega

/-- C4 witness: the hypotheses are satisfiable — at [0,10] and [5,15] on the
shared path p1.content, truncateWith does not hit the Illegal state error. -/
theorem C4_illegal_state_unreachable_witness :
    (⟨["p1", "content"], 0, 10, false, none, none⟩ : PropertySelection).truncateWith
        (.prop ⟨["p1", "content"], 5, 15, false, none, none⟩) ≠
      .error .illegalState :=
  C4_illegal_state_unreachable
    ⟨["p1", "content"], 0, 10, false, none, none⟩
    ⟨["p1", "content"], 5, 15, false, none, none⟩
    rfl (by decide) (by decide) (by decide) (by decide)

/-- C5 counterexample: truncating [0,10] on path p1.content with the
property-scoped [3,6] on the different path p2.content does not raise any
error: the call falls into the no-overlap branch and returns this selection
unchanged. -/
theorem C5_counterexample_different_path_no_error :
    (⟨["p1", "content"], 0, 10, false, none, none⟩ : PropertySelection).truncateWith
        (.prop ⟨["p2", "content"], 3, 6, false, none, none⟩) =
      .ok (.prop ⟨["p1", "content"], 0, 10, false, none, none⟩) := by
  decide

/-- C5 amended: when truncateWith is called with a property-scoped other
selection addressing a different path, the two selections do not overlap
and truncateWith returns this selection unchanged; no incompatible-path
error is raised (only expand raises that error). -/
theorem C5_amended_different_path_noop (s o : PropertySelection)
    (hne : s.path ≠ o.path) :
    s.truncateWith (.prop o) = .ok (.prop s) := by
  have hni : Sel.isInsideOf (.prop o) (.prop s) true = false := by
    rw [strictInside_eq]
    simp [beq_iff_eq]
    intro he
    exact absurd he.symm hne
  have hov : s.overlaps (.prop o) false = false := by
    simp [PropertySelection.overlaps, bne_iff_ne, hne]
  unfold PropertySelection.truncateWith
  rw [hni, hov]
  simp [Sel.isNull]

/-- C5 amended witness: [0,10] on path p1.content truncated with [3,6] on
path p2.content is returned unchanged. -/
theorem C5_amended_different_path_noop_witness :
    (⟨["p1", "content"], 0, 10, false, none, none⟩ : PropertySelection).truncateWith
        (.prop ⟨["p2", "content"], 3, 6, false, none, none⟩) =
      .ok (.prop ⟨["p1", "content"], 0, 10, false, none, none⟩) :=
  C5_amended_different_path_noop
    ⟨["p1", "content"], 0, 10, false, none, none⟩
    ⟨["p2", "content"], 3, 6, false, none, none⟩
    (by decide)

/-- C7: for two property-scoped selections on the same path, expand returns
a new selection spanning min(startOffsets)..max(endOffsets); hence the
result range is commutative in its arguments and expand of a selection with
itself yields its own range; for different paths expand fails with the
incompatible-path error. -/
theorem C7_expand_union_comm_idem (s o : PropertySelection) :
    (s.path = o.path →
      s.expand (.prop o) = .ok (.prop (s.createWithNewRange
        (min s.startOffset o.startOffset) (max s.endOffset o.endOffset)))) ∧
    (s.path = o.path → ∀ r1 r2, s.expand (.prop o) = .ok (.prop r1) →
      o.expand (.prop s) = .ok (.prop r2) →
      r1.startOffset = r2.startOffset ∧ r1.endOffset = r2.endOffset) ∧
    (∀ r, s.expand (.prop s) = .ok (.prop r) →
      r.startOffset = s.startOffset ∧ r.endOffset = s.endOffset) ∧
    (s.path ≠ o.path → s.expand (.prop o) = .error .incompatiblePath) := by
  refine ⟨?_, ?_, ?_, ?_⟩
  · intro hpath
    simp [PropertySelection.expand, hpath]
  · intro hpath r1 r2 h1 h2
    simp only [PropertySelection.expand, hpath, bne_self_eq_false,
      Bool.false_eq_true, if_false, Except.ok.injEq, Sel.prop.injEq] at h1
    simp only [PropertySelection.expand, ← hpath, bne_self_eq_false,
      Bool.false_eq_true, if_false, Except.ok.injEq, Sel.prop.injEq] at h2
    subst h1
    subst h2
    constructor
    · simp [PropertySelection.createWithNewRange, min_comm]
    · simp [PropertySelection.createWithNewRange, max_comm]
  · intro r hr
    simp only [PropertySelection.expand, bne_self_eq_false,
      Bool.false_eq_true, if_false, Except.ok.injEq, Sel.prop.injEq] at hr
    subst hr
    simp [PropertySelection.createWithNewRange]
  · intro hne
    simp [PropertySelection.expand, bne_iff_ne, hne]

/-- C7 witness: expanding [3,6] with [1,9] on the shared path p1.content
yields [1,9] both ways round; expanding [3,6] with itself keeps its range;
and expansion across paths p1.content and p3.content fails with the
incompatible-path error. -/
theorem C7_expand_union_comm_idem_witness :
    (⟨["p1", "content"], 3, 6, false, none, none⟩ : PropertySelection).expand
        (.prop ⟨["p1", "content"], 1, 9, false, none, none⟩) =
      .ok (.prop ((⟨["p1", "content"], 3, 6, false, none, none⟩ :
        PropertySelection).createWithNewRange (min 3 1) (max 6 9))) ∧
    (⟨["p1", "content"], 3, 6, false, none, none⟩ : PropertySelection).expand
        (.prop ⟨["p3", "content"], 1, 9, false, none, none⟩) =
      .error .incompatiblePath := by
  constructor
  · exact (C7_expand_union_comm_idem
      ⟨["p1", "content"], 3, 6, false, none, none⟩
      ⟨["p1", "content"], 1, 9, false, none, none⟩).1 rfl
  · exact (C7_expand_union_comm_idem
      ⟨["p1", "content"], 3, 6, false, none, none⟩
      ⟨["p3", "content"], 1, 9, false, none, none⟩).2.2.2 (by decide)

end Substance
